import Mathlib

/-!
Verification development for the Mastodon instance health checker
(`src/instance_health.py`).  The Python program is shallowly embedded:

* network I/O is modelled by a `Fetch` value per HTTP call — either a raised
  transport exception (`Fetch.exc`) or a response carrying status code, final
  URL, headers and the (possibly unparseable) JSON body;
* each probe method of `InstanceHealthChecker` becomes a total Lean function
  from its transport outcomes to a `ProbeResult` record (the Python result
  dict, with every optional payload key an `Option` field);
* `run_full_check`, `calculate_health_score`, the CSV-free core of
  `compare_instances`, and the hostname normalisation of `__init__` are
  translated directly, including the places where the Python code itself can
  raise (dictionary indexing, division), which are modelled with
  `Except`/`Option` results.
-/

namespace InstanceHealth

/-! ## Character-list string machinery

Python string operations used by the source (`str.replace` with empty
replacement, `str.strip`, substring membership `in`, `str.startswith`) are
modelled on `List Char`. -/

/-- Predicate `hasPre pat s` is true iff `pat` is a prefix of `s`
(the single comparison Python does at one scan position). -/
def hasPre : List Char → List Char → Bool
  | [], _ => true
  | _ :: _, [] => false
  | p :: ps, c :: cs => p == c && hasPre ps cs

/-- Predicate `containsSub pat s` models Python's substring test `pat in s`. -/
def containsSub (pat : List Char) : List Char → Bool
  | [] => hasPre pat []
  | c :: cs => hasPre pat (c :: cs) || containsSub pat cs

/-- Function `removeOccs pat s` models Python's `s.replace(pat, '')`: scan left to
right, remove each non-overlapping occurrence, continue after it. -/
def removeOccs (pat : List Char) (s : List Char) : List Char :=
  match s with
  | [] => []
  | c :: cs =>
      if hasPre pat (c :: cs) then removeOccs pat (cs.drop (pat.length - 1))
      else c :: removeOccs pat cs
termination_by s.length
decreasing_by
  · simp only [List.length_drop, List.length_cons]; omega
  · simp only [List.length_cons]; omega

/-- Remove every leading occurrence of the character `c`. -/
def dropLead (c : Char) : List Char → List Char
  | [] => []
  | x :: xs => if x == c then dropLead c xs else x :: xs

/-- Function `stripCh c s` models Python's `s.strip(c)` for a single-character
argument: drop the character from both ends (here: trailing side first,
via `reverse`, then the leading side). -/
def stripCh (c : Char) (s : List Char) : List Char :=
  dropLead c ((dropLead c s.reverse).reverse)

/-- String version of `containsSub`, for `String` payloads. -/
def strContains (pat s : String) : Bool := containsSub pat.toList s.toList

/-- String version of `hasPre`, modelling Python's `str.startswith`. -/
def strStarts (p s : String) : Bool := hasPre p.toList s.toList

/-! ## Instance identity (`InstanceHealthChecker.__init__`)

`self.instance = instance.replace('https://', '').replace('http://', '').strip('/')`
and `self.base_url = f"https://{self.instance}"`. -/

/-- The character list of the literal `"https://"`. -/
def schemeHttps : List Char := ['h', 't', 't', 'p', 's', ':', '/', '/']

/-- The character list of the literal `"http://"`. -/
def schemeHttp : List Char := ['h', 't', 't', 'p', ':', '/', '/']

/-- The identity `self.instance`: strip both scheme prefixes (every occurrence, as
Python's `replace` does) and surrounding slashes. -/
def normalizeInstance (s : List Char) : List Char :=
  stripCh '/' (removeOccs schemeHttp (removeOccs schemeHttps s))

/-- The base URL `self.base_url = f"https://{self.instance}"`. -/
def baseUrlOf (s : List Char) : List Char :=
  schemeHttps ++ normalizeInstance s

/-! ## JSON values and transport outcomes -/

/-- A parsed JSON document (the result of a successful `response.json()`). -/
inductive Json where
  | null
  | bool (b : Bool)
  | num (n : Int)
  | str (s : String)
  | arr (elems : List Json)
  | obj (fields : List (String × Json))

/-- Dictionary lookup `d.get(k)` on a JSON object; `none` for a missing key
or a non-object. Parsed JSON dicts have pairwise distinct keys, so first
match is the lookup. -/
def jGet (j : Json) (k : String) : Option Json :=
  match j with
  | .obj fields => (fields.find? (fun p => p.1 == k)).map (fun p => p.2)
  | _ => none

/-- Length `len(x)` on a decoded JSON value: defined for lists, dicts and strings,
a `TypeError` (modelled as `.error`) otherwise. -/
def jLen (j : Json) : Except String Nat :=
  match j with
  | .arr xs => .ok xs.length
  | .obj fields => .ok fields.length
  | .str s => .ok s.length
  | _ => .error "TypeError: object has no len"

/-- The kind of exception a `requests` call can raise, with the text that
`str(e)` would produce. `sslError` and `timeout` match the two exception
classes `check_reachability` distinguishes. -/
inductive ExcKind where
  | sslError (msg : String)
  | timeout (msg : String)
  | other (msg : String)
  deriving DecidableEq

/-- The text `str(e)` for a raised exception. -/
def excStr : ExcKind → String
  | .sslError m => m
  | .timeout m => m
  | .other m => m

/-- Outcome of one HTTP call: a raised exception, or a response with final
status code, final URL (after redirects), response headers, and a body whose
`response.json()` either parses (`.ok`) or raises (`.error msg`). -/
inductive Fetch where
  | exc (k : ExcKind)
  | resp (code : Nat) (url : String) (headers : List (String × String))
      (body : Except String Json)

/-! ## Probe results -/

/-- The five boolean security-header checks of `check_security_headers`. -/
structure SecChecks where
  https : Bool
  hsts : Bool
  csp : Bool
  x_frame_options : Bool
  x_content_type_options : Bool
  deriving DecidableEq

/-- A probe's result dict. `status` is always present; every other key is a
probe-specific payload field, absent (`none`) unless that probe set it. -/
structure ProbeResult where
  status : String
  message : Option String := none
  latency_ms : Option Nat := none
  status_code : Option Nat := none
  https : Option Bool := none
  version : Option String := none
  data : Option Json := none
  posts_count : Option Nat := none
  available : Option Bool := none
  checks : Option SecChecks := none
  score : Option Nat := none
  max_score : Option Nat := none
  active : Option Bool := none
  headers : Option (List (String × String)) := none

/-! ## The eight probes -/

/-- Probe `check_reachability`: one GET of the base URL with measured latency. -/
def checkReachability (f : Fetch) (lat : Nat) : ProbeResult :=
  match f with
  | .resp code url _ _ =>
      { status := if code = 200 then "ok" else "warning"
        latency_ms := some lat
        status_code := some code
        https := some (strStarts "https://" url) }
  | .exc (.sslError _) => { status := "error", message := some "SSL-Fehler" }
  | .exc (.timeout _) => { status := "error", message := some "Timeout" }
  | .exc (.other m) => { status := "error", message := some m }

/-- Probe `check_api`: GET `/api/v2/instance`; on non-200, fall back to
`/api/v1/instance`; any exception (transport or JSON parse) gives `error`. -/
def checkApi (f1 f2 : Fetch) : ProbeResult :=
  match f1 with
  | .exc k => { status := "error", message := some (excStr k) }
  | .resp code _ _ body =>
      if code = 200 then
        match body with
        | .ok j => { status := "ok", version := some "v2", data := some j }
        | .error m => { status := "error", message := some m }
      else
        match f2 with
        | .exc k => { status := "error", message := some (excStr k) }
        | .resp code2 _ _ body2 =>
            if code2 = 200 then
              match body2 with
              | .ok j => { status := "ok", version := some "v1", data := some j }
              | .error m => { status := "error", message := some m }
            else
              { status := "error", message := some ("Status " ++ toString code2) }

/-- The substring `'nodeinfo/2.'` the link-selection loop looks for. -/
def niPat : String := "nodeinfo/2."

/-- Lookup `nodeinfo_data.get('links', [])`.  A non-dict document raises
(`AttributeError` on `.get`), a missing key defaults to `[]`.  A present
`links` value that is not a list is modelled as raising: in Python iterating
it either raises at `link.get` / `in` (dicts, numbers, non-empty strings) or
— only for the empty string — falls through to the same `warning` status,
so the probe status is `warning` either way. -/
def getLinks (j : Json) : Except String (List Json) :=
  match j with
  | .obj fields =>
      match jGet (.obj fields) "links" with
      | some (.arr xs) => .ok xs
      | none => .ok []
      | some _ => .error "TypeError: links is not iterable"
  | _ => .error "AttributeError: no attribute get"

/-- The selection loop of `check_nodeinfo`: first link whose
`link.get('href', '')` contains `'nodeinfo/2.'` wins; links without `href`
or without the substring are skipped; a non-dict link or a non-string
`href` raises (`.error`). -/
def findNodeinfoUrl : List Json → Except String (Option String)
  | [] => .ok none
  | l :: ls =>
      match l with
      | .obj fields =>
          match jGet (.obj fields) "href" with
          | some (.str h) =>
              if strContains niPat h then .ok (some h) else findNodeinfoUrl ls
          | some _ => .error "TypeError: href is not a string"
          | none => findNodeinfoUrl ls
      | _ => .error "AttributeError: no attribute get"

/-- Probe `check_nodeinfo`: two-hop discovery.  `f1` is the outcome of the
well-known GET; `g` maps the selected URL to the outcome of the second GET.
Every exception anywhere degrades to `warning`.  The second component
records which URL (if any) was fetched in the second hop. -/
def checkNodeinfo2 (f1 : Fetch) (g : String → Fetch) :
    ProbeResult × Option String :=
  match f1 with
  | .exc k => ({ status := "warning", message := some (excStr k) }, none)
  | .resp code _ _ body =>
      if code ≠ 200 then
        ({ status := "warning", message := some "NodeInfo nicht verfügbar" }, none)
      else
        match body with
        | .error m => ({ status := "warning", message := some m }, none)
        | .ok j =>
            match getLinks j with
            | .error m => ({ status := "warning", message := some m }, none)
            | .ok links =>
                match findNodeinfoUrl links with
                | .error m => ({ status := "warning", message := some m }, none)
                | .ok none =>
                    ({ status := "warning",
                       message := some "NodeInfo-Link nicht gefunden" }, none)
                | .ok (some u) =>
                    match g u with
                    | .exc k =>
                        ({ status := "warning", message := some (excStr k) }, some u)
                    | .resp c2 _ _ b2 =>
                        if c2 = 200 then
                          match b2 with
                          | .ok j2 => ({ status := "ok", data := some j2 }, some u)
                          | .error m =>
                              ({ status := "warning", message := some m }, some u)
                        else
                          ({ status := "warning",
                             message := some "NodeInfo nicht erreichbar" }, some u)

/-- Probe `check_nodeinfo` as the aggregator sees it (result dict only). -/
def checkNodeinfo (f1 : Fetch) (g : String → Fetch) : ProbeResult :=
  (checkNodeinfo2 f1 g).1

/-- Probe `check_timeline_performance`: GET the public timeline, measure latency,
count the returned posts via `len`. -/
def checkTimeline (f : Fetch) (lat : Nat) : ProbeResult :=
  match f with
  | .exc k => { status := "error", message := some (excStr k) }
  | .resp code _ _ body =>
      if code = 200 then
        match body with
        | .error m => { status := "error", message := some m }
        | .ok j =>
            match jLen j with
            | .error m => { status := "error", message := some m }
            | .ok n =>
                { status := "ok", latency_ms := some lat, posts_count := some n }
      else
        { status := "warning", message := some ("Status " ++ toString code) }

/-- Probe `check_streaming`: GET `/api/v1/streaming/health`; never `error`. -/
def checkStreaming (f : Fetch) : ProbeResult :=
  match f with
  | .resp code _ _ _ =>
      { status := if code = 200 then "ok" else "warning"
        available := some (decide (code = 200)) }
  | .exc _ => { status := "warning", message := some "Nicht erreichbar" }

/-- Probe `check_media_upload`: unauthenticated POST to `/api/v2/media`; a 401/403
rejection is the success criterion; never `error`. -/
def checkMediaUpload (f : Fetch) : ProbeResult :=
  match f with
  | .resp code _ _ _ =>
      if code = 401 ∨ code = 403 then
        { status := "ok", available := some true }
      else
        { status := "warning"
          message := some ("Unerwarteter Status " ++ toString code) }
  | .exc k => { status := "warning", message := some (excStr k) }

/-- Header-name membership `name in response.headers`.  The model takes the
header names as they are compared; `requests` compares case-insensitively,
so the header list is understood as carrying the canonical spellings. -/
def hdrHas (headers : List (String × String)) (name : String) : Bool :=
  headers.any (fun p => p.1 == name)

/-- Probe `check_security_headers`: five boolean checks over final URL and
response headers; `score` is the count of true checks, `ok` iff `score ≥ 4`;
a transport exception gives `error` (with no `score`/`max_score` keys). -/
def checkSecurityHeaders (f : Fetch) : ProbeResult :=
  match f with
  | .resp _ url headers _ =>
      let c : SecChecks :=
        { https := strStarts "https://" url
          hsts := hdrHas headers "Strict-Transport-Security"
          csp := hdrHas headers "Content-Security-Policy"
          x_frame_options := hdrHas headers "X-Frame-Options"
          x_content_type_options := hdrHas headers "X-Content-Type-Options" }
      let sc : Nat := c.https.toNat + c.hsts.toNat + c.csp.toNat
          + c.x_frame_options.toNat + c.x_content_type_options.toNat
      { status := if 4 ≤ sc then "ok" else "warning"
        checks := some c
        score := some sc
        max_score := some 5 }
  | .exc k => { status := "error", message := some (excStr k) }

/-- Probe `check_rate_limiting`: GET the public timeline and look for any header
name starting with `X-RateLimit`; never `error`. -/
def checkRateLimiting (f : Fetch) : ProbeResult :=
  match f with
  | .resp _ _ headers _ =>
      let act := headers.any (fun p => strStarts "X-RateLimit" p.1)
      { status := if act then "ok" else "warning"
        active := some act
        headers := some (headers.filter (fun p => strStarts "X-RateLimit" p.1)) }
  | .exc k => { status := "warning", message := some (excStr k) }

/-! ## The aggregator (`run_full_check`) -/

/-- The transport environment of one full run: the outcome every probe's
HTTP call would have if issued.  `ni2` maps the URL selected by the NodeInfo
probe to the outcome of its second GET. -/
structure Env where
  reach : Fetch
  reachLat : Nat
  api1 : Fetch
  api2 : Fetch
  ni1 : Fetch
  ni2 : String → Fetch
  tl : Fetch
  tlLat : Nat
  stream : Fetch
  media : Fetch
  sec : Fetch
  rate : Fetch

/-- How a call to `run_full_check` ends: a normal return of `True`/`False`,
or an uncaught exception escaping the method (the probes themselves never
raise, but the aggregator's own report printing indexes into result dicts
and can raise `KeyError`). -/
inductive RunOutcome where
  | finished (ok : Bool)
  | crashed (msg : String)
  deriving DecidableEq

/-- State `self.health_data`: the per-run mapping from probe key to result dict,
one `Option` field per fixed key. -/
structure HealthReport where
  reachability : Option ProbeResult := none
  api : Option ProbeResult := none
  nodeinfo : Option ProbeResult := none
  timeline : Option ProbeResult := none
  streaming : Option ProbeResult := none
  media : Option ProbeResult := none
  security : Option ProbeResult := none
  rate_limiting : Option ProbeResult := none

/-- The fixed probe order of `run_full_check`, by `health_data` key. -/
def allProbeNames : List String :=
  ["reachability", "api", "nodeinfo", "timeline", "streaming", "media",
   "security", "rate_limiting"]

/-- Method `run_full_check`, with the probe-invocation trace made explicit (third
component: the `health_data` keys of the probes invoked, in order).  The
progress prints between probes index into the result dicts; each such direct
`['key']` access is modelled, returning `RunOutcome.crashed` on a missing
key exactly where Python would raise `KeyError`.  The reachable crash is the
security print `security['score']` on an `error`-status security result;
the other indexed keys are always present in the status branch that reads
them (see the probe lemmas below). -/
def runFullCheck (e : Env) : RunOutcome × HealthReport × List String :=
  let r := checkReachability e.reach e.reachLat
  let hr1 : HealthReport := { reachability := some r }
  if r.status = "error" then
    (.finished false, hr1, ["reachability"])
  else
    match r.latency_ms with
    | none => (.crashed "KeyError: latency_ms", hr1, ["reachability"])
    | some _ =>
        let a := checkApi e.api1 e.api2
        let hr2 := { hr1 with api := some a }
        if a.status = "ok" ∧ a.version = none then
          (.crashed "KeyError: version", hr2, ["reachability", "api"])
        else
          let n := checkNodeinfo e.ni1 e.ni2
          let hr3 := { hr2 with nodeinfo := some n }
          let t := checkTimeline e.tl e.tlLat
          let hr4 := { hr3 with timeline := some t }
          if t.status = "ok" ∧ t.latency_ms = none then
            (.crashed "KeyError: latency_ms", hr4,
             ["reachability", "api", "nodeinfo", "timeline"])
          else
            let s := checkStreaming e.stream
            let hr5 := { hr4 with streaming := some s }
            let m := checkMediaUpload e.media
            let hr6 := { hr5 with media := some m }
            let sec := checkSecurityHeaders e.sec
            let hr7 := { hr6 with security := some sec }
            match sec.score, sec.max_score with
            | some _, some _ =>
                let rl := checkRateLimiting e.rate
                (.finished true, { hr7 with rate_limiting := some rl },
                 allProbeNames)
            | none, _ =>
                (.crashed "KeyError: score", hr7,
                 ["reachability", "api", "nodeinfo", "timeline", "streaming",
                  "media", "security"])
            | some _, none =>
                (.crashed "KeyError: max_score", hr7,
                 ["reachability", "api", "nodeinfo", "timeline", "streaming",
                  "media", "security"])

/-- The single-instance branch of `main`: run the full check; only on a
`True` return print the detailed report (which computes the score) and, if
requested, export the CSV.  Components: run outcome, whether the detailed
report was printed (and hence a score computed), whether the CSV export was
performed. -/
def mainSingle (e : Env) (exportRequested : Bool) : RunOutcome × Bool × Bool :=
  match runFullCheck e with
  | (.finished true, _, _) => (.finished true, true, exportRequested)
  | (.finished false, _, _) => (.finished false, false, false)
  | (.crashed m, _, _) => (.crashed m, false, false)

/-! ## The score calculator (`calculate_health_score`) -/

/-- Reachability bucket: 20 points for `ok` plus a latency bonus, with
`latency_ms` read via `.get('latency_ms', 1000)`. -/
def reachPts (o : Option ProbeResult) : Nat :=
  match o with
  | some p =>
      if p.status = "ok" then
        20 + (if p.latency_ms.getD 1000 < 200 then 5
              else if p.latency_ms.getD 1000 < 500 then 3 else 0)
      else 0
  | none => 0

/-- API bucket: 15 points for `ok`. -/
def apiPts (o : Option ProbeResult) : Nat :=
  match o with
  | some p => if p.status = "ok" then 15 else 0
  | none => 0

/-- Federation bucket: 10 points for `ok`. -/
def nodeinfoPts (o : Option ProbeResult) : Nat :=
  match o with
  | some p => if p.status = "ok" then 10 else 0
  | none => 0

/-- Timeline bucket: 10 points for `ok` plus a latency bonus. -/
def timelinePts (o : Option ProbeResult) : Nat :=
  match o with
  | some p =>
      if p.status = "ok" then
        10 + (if p.latency_ms.getD 1000 < 300 then 5
              else if p.latency_ms.getD 1000 < 600 then 3 else 0)
      else 0
  | none => 0

/-- Streaming bucket: 10 points for `ok`. -/
def streamingPts (o : Option ProbeResult) : Nat :=
  match o with
  | some p => if p.status = "ok" then 10 else 0
  | none => 0

/-- Media-upload bucket: 10 points for `ok`. -/
def mediaPts (o : Option ProbeResult) : Nat :=
  match o with
  | some p => if p.status = "ok" then 10 else 0
  | none => 0

/-- Security bucket: for status `ok` or `warning`,
`int(15 * (sec_score / sec_max))`, read by direct indexing
(`self.health_data['security']['score']` / `['max_score']`), so a missing
key raises `KeyError` and `sec_max == 0` raises `ZeroDivisionError` — both
modelled as `none`.  Python evaluates the quotient in binary floating point;
for every value the security probe can produce (`max_score = 5`,
`score ≤ 5`) the float result of `int(15 * (s / 5))` equals the exact
integer floor `15 * s / 5 = 3 * s` used here, and the value-sensitive
theorems below only instantiate this bucket at `max_score = 5`. -/
def secPts (o : Option ProbeResult) : Option Nat :=
  match o with
  | none => some 0
  | some p =>
      if p.status = "ok" ∨ p.status = "warning" then
        match p.score, p.max_score with
        | some s, some m => if m = 0 then none else some (15 * s / m)
        | _, _ => none
      else some 0

/-- Rate-limiting bucket: 5 points for `ok`. -/
def ratePts (o : Option ProbeResult) : Nat :=
  match o with
  | some p => if p.status = "ok" then 5 else 0
  | none => 0

/-- The accumulated `score` of `calculate_health_score` before the final
`min(score, 100)`; `none` where Python raises in the security bucket. -/
def rawScore (hr : HealthReport) : Option Nat :=
  (secPts hr.security).map (fun sp =>
    reachPts hr.reachability + apiPts hr.api + nodeinfoPts hr.nodeinfo
      + timelinePts hr.timeline + streamingPts hr.streaming
      + mediaPts hr.media + sp + ratePts hr.rate_limiting)

/-- Function `calculate_health_score`: the accumulated bucket sum clamped by
`min(score, 100)`. -/
def calculate_health_score (hr : HealthReport) : Option Nat :=
  (rawScore hr).map (fun sc => min sc 100)

/-! ## The comparator (`compare_instances`) -/

/-- One ranking entry: `{'instance': ..., 'score': ..., 'data': ...}`. -/
structure CompEntry where
  name : String
  score : Nat
  data : HealthReport

/-- Insert an entry into an already-sorted (descending) list, after every
strictly higher score and before every lower-or-equal one. -/
def insDesc (a : CompEntry) : List CompEntry → List CompEntry
  | [] => [a]
  | b :: bs => if a.score < b.score then b :: insDesc a bs else a :: b :: bs

/-- The call `results.sort(key=lambda x: x['score'], reverse=True)`: Python's sort is
guaranteed stable and `reverse=True` keeps equal elements in their original
order, i.e. a stable descending sort by score — which this insertion sort
implements (an element moves past exactly the strictly higher scores). -/
def sortDesc : List CompEntry → List CompEntry
  | [] => []
  | a :: as => insDesc a (sortDesc as)

/-- The loop of `compare_instances`: run each instance in order; a `True`
return appends `{'instance', 'score', 'data'}` (the score computed right
away by `calculate_health_score`), a `False` return skips the instance, and
an uncaught exception propagates out of `compare_instances` (`.error`),
discarding everything. -/
def runEntries : List (String × Env) → Except String (List CompEntry)
  | [] => .ok []
  | (nm, e) :: rest =>
      match (runFullCheck e).1 with
      | .crashed m => .error m
      | .finished false => runEntries rest
      | .finished true =>
          match calculate_health_score (runFullCheck e).2.1 with
          | none => .error "KeyError in calculate_health_score"
          | some sc =>
              (runEntries rest).map
                (fun l => ⟨nm, sc, (runFullCheck e).2.1⟩ :: l)

/-- Function `compare_instances` up to console formatting: collect the entries of the
gate-passing instances, then stable-sort them descending by score. -/
def compareInstances (xs : List (String × Env)) :
    Except String (List CompEntry) :=
  (runEntries xs).map sortDesc

/-! ## Statement-side predicates -/

/-- The status taxonomy: exactly one of `ok`, `warning`, `error`. -/
def StatusValid (s : String) : Prop :=
  s = "ok" ∨ s = "warning" ∨ s = "error"

/-- A report whose security entry, when its status is `ok` or `warning`,
carries the `score`/`max_score` payload with a non-zero maximum — the shape
every `check_security_headers` output has.  On such reports
`calculate_health_score` cannot raise. -/
def SecWF (hr : HealthReport) : Prop :=
  ∀ p, hr.security = some p → p.status = "ok" ∨ p.status = "warning" →
    ∃ s m, p.score = some s ∧ p.max_score = some m ∧ m ≠ 0

/-- Relation `scoreLe hr hr'`: whenever `calculate_health_score` is defined on `hr`,
it is also defined on `hr'` and is at least as large. -/
def scoreLe (hr hr' : HealthReport) : Prop :=
  ∀ n, calculate_health_score hr = some n →
    ∃ m, calculate_health_score hr' = some m ∧ n ≤ m

/-- A link object the NodeInfo selection loop skips: a JSON object without
an `href`, or with a string `href` not containing `'nodeinfo/2.'`. -/
def SkipLink (j : Json) : Prop :=
  (∃ fields, j = .obj fields ∧ jGet j "href" = none) ∨
  (∃ fields h, j = .obj fields ∧ jGet j "href" = some (.str h) ∧
    strContains niPat h = false)

/-- A link object the NodeInfo selection loop accepts: a JSON object whose
`href` is the string `h` containing `'nodeinfo/2.'`. -/
def MatchLink (j : Json) (h : String) : Prop :=
  ∃ fields, j = .obj fields ∧ jGet j "href" = some (.str h) ∧
    strContains niPat h = true

/-- The ranking data of an entry list that the theorems compare: instance
name and score, without the raw report payload. -/
def namesScores (l : List CompEntry) : List (String × Nat) :=
  l.map (fun r => (r.name, r.score))

/-! ## Concrete reports and environments used in the claims -/

/-- An all-failing report: every probe returned `status='error'`. -/
def allErrorReport : HealthReport :=
  { reachability := some { status := "error", message := some "Timeout" }
    api := some { status := "error", message := some "Timeout" }
    nodeinfo := some { status := "error", message := some "Timeout" }
    timeline := some { status := "error", message := some "Timeout" }
    streaming := some { status := "error", message := some "Timeout" }
    media := some { status := "error", message := some "Timeout" }
    security := some { status := "error", message := some "Timeout" }
    rate_limiting := some { status := "error", message := some "Timeout" } }

/-- An all-succeeding report with minimum latencies: every bucket at its
maximum, including both latency bonuses and a 5/5 security score. -/
def allOkFastReport : HealthReport :=
  { reachability := some
      { status := "ok", latency_ms := some 50, status_code := some 200, https := some true }
    api := some { status := "ok", version := some "v2", data := some .null }
    nodeinfo := some { status := "ok", data := some .null }
    timeline := some { status := "ok", latency_ms := some 50, posts_count := some 20 }
    streaming := some { status := "ok", available := some true }
    media := some { status := "ok", available := some true }
    security := some
      { status := "ok", checks := some ⟨true, true, true, true, true⟩, score := some 5, max_score := some 5 }
    rate_limiting := some { status := "ok", active := some true, headers := some [] } }

/-- An environment where the instance is reachable but the security-header
GET times out, so `check_security_headers` returns `status='error'` without
a `score` key — the input on which `run_full_check` itself raises. -/
def envSecurityError : Env :=
  { reach := .resp 200 "https://x.example/" [] (.ok .null)
    reachLat := 100
    api1 := .resp 200 "https://x.example/api/v2/instance" [] (.ok (.obj []))
    api2 := .exc (.other "unused")
    ni1 := .exc (.other "connection reset")
    ni2 := fun _ => .exc (.other "unused")
    tl := .resp 200 "" [] (.ok (.arr []))
    tlLat := 100
    stream := .resp 200 "" [] (.ok .null)
    media := .resp 401 "" [] (.ok .null)
    sec := .exc (.timeout "HTTPSConnectionPool: Read timed out")
    rate := .resp 200 "" [] (.ok .null) }

/-- A transport environment whose run scores 40: reachable at 100 ms
(25 pts) with a working v2 API (15 pts), everything else degraded. -/
def envScore40 : Env :=
  { reach := .resp 200 "https://a.example/" [] (.ok .null)
    reachLat := 100
    api1 := .resp 200 "" [] (.ok (.obj []))
    api2 := .exc (.other "unused")
    ni1 := .exc (.other "refused")
    ni2 := fun _ => .exc (.other "unused")
    tl := .exc (.other "refused")
    tlLat := 100
    stream := .exc (.other "refused")
    media := .resp 200 "" [] (.ok .null)
    sec := .resp 503 "http://a.example/" [] (.ok .null)
    rate := .resp 200 "" [] (.ok .null) }

/-- A transport environment whose run scores 90: every bucket maximal
except the security headers (0/5, `warning`, 0 pts). -/
def envScore90 : Env :=
  { reach := .resp 200 "https://b.example/" [] (.ok .null)
    reachLat := 100
    api1 := .resp 200 "" [] (.ok (.obj []))
    api2 := .exc (.other "unused")
    ni1 := .resp 200 "" []
      (.ok (.obj [("links",
        .arr [.obj [("href", .str "https://b.example/nodeinfo/2.0")]])]))
    ni2 := fun _ => .resp 200 "" [] (.ok (.obj []))
    tl := .resp 200 "" [] (.ok (.arr []))
    tlLat := 100
    stream := .resp 200 "" [] (.ok .null)
    media := .resp 401 "" [] (.ok .null)
    sec := .resp 200 "http://b.example/" [] (.ok .null)
    rate := .resp 200 "" [("X-RateLimit-Limit", "300")] (.ok .null)
  }

/-- A transport environment whose run scores 10: the root responds 503
(reachability `warning`, gate passed, 0 pts) and only streaming is up. -/
def envScore10 : Env :=
  { reach := .resp 503 "https://d.example/" [] (.ok .null)
    reachLat := 100
    api1 := .exc (.other "refused")
    api2 := .exc (.other "refused")
    ni1 := .exc (.other "refused")
    ni2 := fun _ => .exc (.other "unused")
    tl := .resp 500 "" [] (.ok .null)
    tlLat := 100
    stream := .resp 200 "" [] (.ok .null)
    media := .resp 200 "" [] (.ok .null)
    sec := .resp 503 "http://d.example/" [] (.ok .null)
    rate := .resp 200 "" [] (.ok .null) }

/-- The comparator example of the claim: input order `[A, B, C, D]` with
scores `[40, 90, 90, 10]`. -/
def exInput : List (String × Env) :=
  [("A", envScore40), ("B", envScore90), ("C", envScore90), ("D", envScore10)]

/-- The entry list `compare_instances` accumulates for `exInput` before
sorting (used to instantiate the general comparator theorem). -/
def exEntries : List CompEntry :=
  match runEntries exInput with
  | .ok l => l
  | .error _ => []

/-! ## Helper lemmas: character-list machinery -/

theorem hasPre_append_self (pat r : List Char) : hasPre pat (pat ++ r) = true := by
  induction pat with
  | nil => rfl
  | cons p ps ih => simp [hasPre, ih]

theorem mem_of_hasPre {pat s : List Char} (h : hasPre pat s = true) :
    ∀ a ∈ pat, a ∈ s := by
  induction pat generalizing s with
  | nil => intro a ha; exact absurd ha (List.not_mem_nil a)
  | cons p ps ih =>
      cases s with
      | nil => simp [hasPre] at h
      | cons c cs =>
          simp only [hasPre, Bool.and_eq_true, beq_iff_eq] at h
          intro a ha
          rcases List.mem_cons.mp ha with rfl | ha2
          · exact h.1 ▸ List.mem_cons_self _ _
          · exact List.mem_cons_of_mem _ (ih h.2 a ha2)

theorem mem_of_containsSub {pat s : List Char} (h : containsSub pat s = true) :
    ∀ a ∈ pat, a ∈ s := by
  induction s with
  | nil => exact mem_of_hasPre h
  | cons c cs ih =>
      simp only [containsSub, Bool.or_eq_true] at h
      rcases h with h | h
      · exact mem_of_hasPre h
      · exact fun a ha => List.mem_cons_of_mem _ (ih h a ha)

theorem containsSub_eq_false_of_colonFree {pat s : List Char} (hp : ':' ∈ pat)
    (hs : ∀ c ∈ s, c ≠ ':') : containsSub pat s = false := by
  cases h : containsSub pat s with
  | false => rfl
  | true => exact absurd rfl (hs ':' (mem_of_containsSub h ':' hp))

theorem removeOccs_nil (pat : List Char) : removeOccs pat [] = [] := by
  rw [removeOccs.eq_def]

theorem removeOccs_cons (pat : List Char) (c : Char) (cs : List Char) :
    removeOccs pat (c :: cs) =
      if hasPre pat (c :: cs) then removeOccs pat (cs.drop (pat.length - 1))
      else c :: removeOccs pat cs := by
  rw [removeOccs.eq_def]

theorem removeOccs_of_containsSub_false {pat s : List Char}
    (h : containsSub pat s = false) : removeOccs pat s = s := by
  induction s with
  | nil => exact removeOccs_nil pat
  | cons c cs ih =>
      simp only [containsSub, Bool.or_eq_false_iff] at h
      rw [removeOccs_cons, if_neg (by simp [h.1]), ih h.2]

theorem removeOccs_append_self (p : Char) (ps r : List Char) :
    removeOccs (p :: ps) (p :: ps ++ r) = removeOccs (p :: ps) r := by
  rw [List.cons_append,
    removeOccs_cons, if_pos (by simpa using hasPre_append_self (p :: ps) r)]
  simp

theorem dropLead_cons_self (c : Char) (s : List Char) :
    dropLead c (c :: s) = dropLead c s := by
  simp [dropLead]

theorem stripCh_append_self (c : Char) (s : List Char) :
    stripCh c (s ++ [c]) = stripCh c s := by
  simp [stripCh, List.reverse_append, dropLead_cons_self]

theorem mem_of_mem_dropLead {c a : Char} {s : List Char}
    (h : a ∈ dropLead c s) : a ∈ s := by
  induction s with
  | nil => simp [dropLead] at h
  | cons x xs ih =>
      by_cases hx : x = c
      · subst hx; rw [dropLead_cons_self] at h
        exact List.mem_cons_of_mem _ (ih h)
      · rw [dropLead, if_neg (by simpa using hx)] at h; exact h

theorem mem_of_mem_stripCh {c a : Char} {s : List Char}
    (h : a ∈ stripCh c s) : a ∈ s := by
  unfold stripCh at h
  have h1 := mem_of_mem_dropLead h
  rw [List.mem_reverse] at h1
  have h2 := mem_of_mem_dropLead h1
  rwa [List.mem_reverse] at h2

theorem removeOccs_https_append (r : List Char) :
    removeOccs schemeHttps (schemeHttps ++ r) = removeOccs schemeHttps r :=
  removeOccs_append_self 'h' ['t', 't', 'p', 's', ':', '/', '/'] r

theorem removeOccs_http_append (r : List Char) :
    removeOccs schemeHttp (schemeHttp ++ r) = removeOccs schemeHttp r :=
  removeOccs_append_self 'h' ['t', 't', 'p', ':', '/', '/'] r

/-- Prepending `"http://"` creates no occurrence of `"https://"`: the only
colon is followed by `'/'`, not preceded by `'s'`. -/
theorem containsSub_https_of_http_append {host : List Char}
    (hc : ∀ c ∈ host, c ≠ ':') :
    containsSub schemeHttps (schemeHttp ++ host) = false := by
  have tail : containsSub schemeHttps host = false :=
    containsSub_eq_false_of_colonFree (by decide) hc
  have p0 : hasPre schemeHttps
      ('h' :: 't' :: 't' :: 'p' :: ':' :: '/' :: '/' :: host) = false := rfl
  have p1 : hasPre schemeHttps
      ('t' :: 't' :: 'p' :: ':' :: '/' :: '/' :: host) = false := rfl
  have p2 : hasPre schemeHttps ('t' :: 'p' :: ':' :: '/' :: '/' :: host) = false := rfl
  have p3 : hasPre schemeHttps ('p' :: ':' :: '/' :: '/' :: host) = false := rfl
  have p4 : hasPre schemeHttps (':' :: '/' :: '/' :: host) = false := rfl
  have p5 : hasPre schemeHttps ('/' :: '/' :: host) = false := rfl
  have p6 : hasPre schemeHttps ('/' :: host) = false := rfl
  rw [show schemeHttp ++ host
      = 'h' :: 't' :: 't' :: 'p' :: ':' :: '/' :: '/' :: host from rfl]
  simp only [containsSub, p0, p1, p2, p3, p4, p5, p6, Bool.false_or]
  exact tail

/-- On a colon-free hostname both scheme replacements are no-ops, so the
stored identity is just the slash-stripped input. -/
theorem normalizeInstance_colonFree {host : List Char}
    (hc : ∀ c ∈ host, c ≠ ':') : normalizeInstance host = stripCh '/' host := by
  unfold normalizeInstance
  rw [removeOccs_of_containsSub_false
        (containsSub_eq_false_of_colonFree (show ':' ∈ schemeHttps by decide) hc),
      removeOccs_of_containsSub_false
        (containsSub_eq_false_of_colonFree (show ':' ∈ schemeHttp by decide) hc)]

/-- C6.  For every hostname `host` (a string without `':'` — hostnames have
no scheme or port separator), constructing the checker from
`"https://host/"`, `"http://host"` and `"host"` yields the same stored
identity and the same base URL; the identity contains neither scheme
prefix as a substring, and the base URL literally starts with
`"https://"`. -/
theorem instance_identity_normalization (host : List Char)
    (hc : ∀ c ∈ host, c ≠ ':') :
    normalizeInstance (schemeHttps ++ host ++ ['/']) = normalizeInstance host ∧
    normalizeInstance (schemeHttp ++ host) = normalizeInstance host ∧
    containsSub schemeHttps (normalizeInstance host) = false ∧
    containsSub schemeHttp (normalizeInstance host) = false ∧
    baseUrlOf (schemeHttps ++ host ++ ['/']) = baseUrlOf host ∧
    baseUrlOf (schemeHttp ++ host) = baseUrlOf host ∧
    hasPre schemeHttps (baseUrlOf host) = true := by
  have hslash : ∀ c ∈ host ++ ['/'], c ≠ ':' := by
    intro c hm
    rcases List.mem_append.mp hm with h1 | h2
    · exact hc c h1
    · simp only [List.mem_singleton] at h2; subst h2; decide
  have hHttpsMem : ':' ∈ schemeHttps := by decide
  have hHttpMem : ':' ∈ schemeHttp := by decide
  have norm1 : normalizeInstance (schemeHttps ++ host ++ ['/'])
      = stripCh '/' host := by
    unfold normalizeInstance
    rw [List.append_assoc, removeOccs_https_append,
        removeOccs_of_containsSub_false
          (containsSub_eq_false_of_colonFree hHttpsMem hslash),
        removeOccs_of_containsSub_false
          (containsSub_eq_false_of_colonFree hHttpMem hslash),
        stripCh_append_self]
  have norm2 : normalizeInstance (schemeHttp ++ host) = stripCh '/' host := by
    unfold normalizeInstance
    rw [removeOccs_of_containsSub_false (containsSub_https_of_http_append hc),
        removeOccs_http_append,
        removeOccs_of_containsSub_false
          (containsSub_eq_false_of_colonFree hHttpMem hc)]
  have normHost := normalizeInstance_colonFree hc
  have identFree : ∀ c ∈ normalizeInstance host, c ≠ ':' := by
    intro c hm
    rw [normHost] at hm
    exact hc c (mem_of_mem_stripCh hm)
  refine ⟨norm1.trans normHost.symm, norm2.trans normHost.symm,
    containsSub_eq_false_of_colonFree hHttpsMem identFree,
    containsSub_eq_false_of_colonFree hHttpMem identFree, ?_, ?_, ?_⟩
  · unfold baseUrlOf; rw [norm1, normHost]
  · unfold baseUrlOf; rw [norm2, normHost]
  · exact hasPre_append_self schemeHttps (normalizeInstance host)

/-- Witness for C6 at the hostname `mastodon.social`. -/
theorem instance_identity_normalization_witness :
    normalizeInstance (schemeHttps
        ++ ['m', 'a', 's', 't', 'o', 'd', 'o', 'n', '.', 's', 'o', 'c', 'i', 'a', 'l']
        ++ ['/'])
      = normalizeInstance
          ['m', 'a', 's', 't', 'o', 'd', 'o', 'n', '.', 's', 'o', 'c', 'i', 'a', 'l'] :=
  (instance_identity_normalization
    ['m', 'a', 's', 't', 'o', 'd', 'o', 'n', '.', 's', 'o', 'c', 'i', 'a', 'l']
    (by decide)).1

/-! ## C1: every probe is total with a tri-state status -/

/-- C1.  Every probe is a total function of its transport/parse outcomes —
it returns exactly one result record per invocation and never propagates a
fault (each Lean probe function is total over `Fetch`, whose `exc`
constructor covers every raised exception and whose body `Except` covers
JSON-parse failures) — and the returned record's status is always one of
`ok`/`warning`/`error`. -/
theorem probes_total_and_status_valid :
    (∀ f lat, StatusValid (checkReachability f lat).status) ∧
    (∀ f1 f2, StatusValid (checkApi f1 f2).status) ∧
    (∀ f g, StatusValid (checkNodeinfo f g).status) ∧
    (∀ f lat, StatusValid (checkTimeline f lat).status) ∧
    (∀ f, StatusValid (checkStreaming f).status) ∧
    (∀ f, StatusValid (checkMediaUpload f).status) ∧
    (∀ f, StatusValid (checkSecurityHeaders f).status) ∧
    (∀ f, StatusValid (checkRateLimiting f).status) := by
  refine ⟨?_, ?_, ?_, ?_, ?_, ?_, ?_, ?_⟩
  · intro f lat
    rcases f with k | ⟨code, url, hs, b⟩
    · cases k <;> simp [checkReachability, StatusValid]
    · by_cases h : code = 200 <;> simp [checkReachability, StatusValid, h]
  · intro f1 f2
    rcases f1 with k | ⟨c, u, hs, b⟩
    · simp [checkApi, StatusValid]
    · by_cases h : c = 200
      · rcases b with j | m <;> simp [checkApi, StatusValid, h]
      · rcases f2 with k | ⟨c2, u2, hs2, b2⟩
        · simp [checkApi, StatusValid, h]
        · by_cases h2 : c2 = 200
          · rcases b2 with j | m <;> simp [checkApi, StatusValid, h, h2]
          · simp [checkApi, StatusValid, h, h2]
  · intro f g
    rcases f with k | ⟨c, u, hs, b⟩
    · simp [checkNodeinfo, checkNodeinfo2, StatusValid]
    · simp only [checkNodeinfo, checkNodeinfo2]
      repeat' split
      all_goals simp [StatusValid]
  · intro f lat
    rcases f with k | ⟨c, u, hs, b⟩
    · simp [checkTimeline, StatusValid]
    · simp only [checkTimeline]
      repeat' split
      all_goals simp [StatusValid]
  · intro f
    rcases f with k | ⟨c, u, hs, b⟩
    · simp [checkStreaming, StatusValid]
    · by_cases h : c = 200 <;> simp [checkStreaming, StatusValid, h]
  · intro f
    rcases f with k | ⟨c, u, hs, b⟩
    · simp [checkMediaUpload, StatusValid]
    · by_cases h : c = 401 ∨ c = 403 <;> simp [checkMediaUpload, StatusValid, h]
  · intro f
    rcases f with k | ⟨c, u, hs, b⟩
    · simp [checkSecurityHeaders, StatusValid]
    · simp only [checkSecurityHeaders]
      split <;> simp [StatusValid]
  · intro f
    rcases f with k | ⟨c, u, hs, b⟩
    · simp [checkRateLimiting, StatusValid]
    · simp only [checkRateLimiting]
      split <;> simp [StatusValid]

/-! ## C8: security-header sub-score -/

/-- C8.  For every response, the security probe's sub-score is exactly the
number of true checks among the five boolean header checks, hence lies in
`[0, 5]` (with `max_score = 5`), and the status is `ok` precisely when the
sub-score is at least 4, `warning` otherwise. -/
theorem security_headers_scoring (code : Nat) (url : String)
    (headers : List (String × String)) (body : Except String Json) :
    ∃ c n, (checkSecurityHeaders (.resp code url headers body)).checks = some c ∧
      (checkSecurityHeaders (.resp code url headers body)).score = some n ∧
      n = c.https.toNat + c.hsts.toNat + c.csp.toNat + c.x_frame_options.toNat
          + c.x_content_type_options.toNat ∧
      n ≤ 5 ∧
      (checkSecurityHeaders (.resp code url headers body)).max_score = some 5 ∧
      ((checkSecurityHeaders (.resp code url headers body)).status = "ok" ↔ 4 ≤ n) ∧
      ((checkSecurityHeaders (.resp code url headers body)).status = "warning" ↔ n < 4) := by
  refine ⟨_, _, rfl, rfl, rfl, ?_, rfl, ?_, ?_⟩
  · dsimp only
    have h1 := Bool.toNat_le (strStarts "https://" url)
    have h2 := Bool.toNat_le (hdrHas headers "Strict-Transport-Security")
    have h3 := Bool.toNat_le (hdrHas headers "Content-Security-Policy")
    have h4 := Bool.toNat_le (hdrHas headers "X-Frame-Options")
    have h5 := Bool.toNat_le (hdrHas headers "X-Content-Type-Options")
    omega
  · simp only [checkSecurityHeaders]
    split
    · next h => simpa using h
    · next h => constructor
                · intro hx; simp at hx
                · intro hx; omega
  · simp only [checkSecurityHeaders]
    split
    · next h => constructor
                · intro hx; simp at hx
                · intro hx; omega
    · next h => simpa using Nat.lt_of_not_le h

/-! ## C9: media-upload outcomes -/

/-- C9.  The media-upload probe returns `ok` with `available=true` exactly
for a 401 or 403 response, `warning` with the unexpected code otherwise,
`warning` on a transport fault, and never returns `error`. -/
theorem media_upload_outcomes :
    (∀ code url headers body, checkMediaUpload (.resp code url headers body) =
      if code = 401 ∨ code = 403 then { status := "ok", available := some true }
      else { status := "warning"
             message := some ("Unerwarteter Status " ++ toString code) }) ∧
    (∀ k, checkMediaUpload (.exc k) =
      { status := "warning", message := some (excStr k) }) ∧
    (∀ f, (checkMediaUpload f).status ≠ "error") := by
  refine ⟨fun code url headers body => rfl, fun k => rfl, ?_⟩
  intro f
  rcases f with k | ⟨c, u, hs, b⟩
  · simp [checkMediaUpload]
  · by_cases h : c = 401 ∨ c = 403 <;> simp [checkMediaUpload, h]

/-! ## C2: score bounds and extremes -/

/-- C2.  For every report whose security entry is well-formed (the shape
the probe always produces), `calculate_health_score` returns an integer in
`[0, 100]`; the all-failing report scores 0; the all-succeeding report with
minimum latencies accumulates a raw bucket sum of 105, which the final
clamp reduces to exactly 100. -/
theorem score_in_range_and_extremes :
    (∀ hr, SecWF hr → ∃ n, calculate_health_score hr = some n ∧ n ≤ 100) ∧
    calculate_health_score allErrorReport = some 0 ∧
    rawScore allOkFastReport = some 105 ∧
    calculate_health_score allOkFastReport = some 100 := by
  refine ⟨?_, rfl, rfl, rfl⟩
  intro hr hwf
  have hsec : ∃ sp, secPts hr.security = some sp := by
    rcases ho : hr.security with _ | p
    · exact ⟨0, rfl⟩
    · by_cases hst : p.status = "ok" ∨ p.status = "warning"
      · obtain ⟨s, m, hs, hm, hm0⟩ := hwf p ho hst
        refine ⟨15 * s / m, ?_⟩
        simp only [secPts, if_pos hst, hs, hm]
        rw [if_neg hm0]
      · exact ⟨0, by simp only [secPts, if_neg hst]⟩
  obtain ⟨sp, hsp⟩ := hsec
  exact ⟨min (reachPts hr.reachability + apiPts hr.api + nodeinfoPts hr.nodeinfo
      + timelinePts hr.timeline + streamingPts hr.streaming + mediaPts hr.media
      + sp + ratePts hr.rate_limiting) 100,
    by simp [calculate_health_score, rawScore, hsp], Nat.min_le_right _ _⟩

/-- Witness for C2 at the all-succeeding report. -/
theorem score_in_range_witness :
    ∃ n, calculate_health_score allOkFastReport = some n ∧ n ≤ 100 :=
  score_in_range_and_extremes.1 allOkFastReport (by
    intro p hp hst
    simp only [allOkFastReport] at hp
    injection hp with h
    subst h
    exact ⟨5, 5, rfl, rfl, by decide⟩)

/-! ## C4: the security bucket -/

/-- C4.  For a security entry with status `ok`/`warning`, sub-score `s` and
`max_score = 5`, the security bucket contributes exactly
`15 * s / 5 = 3 * s` points (0, 3, 6, 9, 12, 15 for `s = 0..5`) to the
accumulated total; a security entry with status `error` contributes 0. -/
theorem security_bucket_contribution :
    (∀ (hr : HealthReport) (p : ProbeResult) (s : Nat),
      hr.security = some p → p.status = "ok" ∨ p.status = "warning" →
      p.score = some s → p.max_score = some 5 → s ≤ 5 →
      secPts hr.security = some (15 * s / 5) ∧ 15 * s / 5 = 3 * s ∧
      rawScore hr = some (reachPts hr.reachability + apiPts hr.api
        + nodeinfoPts hr.nodeinfo + timelinePts hr.timeline
        + streamingPts hr.streaming + mediaPts hr.media + 3 * s
        + ratePts hr.rate_limiting)) ∧
    (∀ (hr : HealthReport) (p : ProbeResult), hr.security = some p →
      p.status = "error" → secPts hr.security = some 0) := by
  constructor
  · intro hr p s ho hst hs hm _
    have hdiv : 15 * s / 5 = 3 * s := by omega
    have hpts : secPts hr.security = some (15 * s / 5) := by
      rw [ho]
      simp only [secPts, if_pos hst, hs, hm]
      rw [if_neg (by omega : (5 : Nat) ≠ 0)]
    exact ⟨hpts, hdiv, by simp [rawScore, hpts, hdiv]⟩
  · intro hr p ho hst
    rw [ho]
    simp only [secPts]
    rw [if_neg (by rw [hst]; decide)]

/-- Witness for C4 at the all-succeeding report (sub-score 5 gives 15). -/
theorem security_bucket_contribution_witness :
    secPts allOkFastReport.security = some (15 * 5 / 5) :=
  (security_bucket_contribution.1 allOkFastReport
    { status := "ok", checks := some ⟨true, true, true, true, true⟩,
      score := some 5, max_score := some 5 }
    5 rfl (Or.inl rfl) rfl rfl (by decide)).1

/-! ## C3: the aggregator crashes on a security-probe error

The claim says that once the Reachability gate passes, all seven remaining
probes execute exactly once.  The code violates this: after the security
probe runs, the progress print in `run_full_check` (line 288) evaluates
`security['score']` in its else-branch, and a security result with
`status='error'` (the probe's exception path) has no `'score'` key, so
`run_full_check` raises an uncaught `KeyError` and the Rate-Limiting probe
is never invoked.  Every other probe-result access in `run_full_check` uses
`.get(...)` with a default or reads a key its status branch guarantees; the
security print is the one unguarded access.  The theorem evaluates the
embedded `run_full_check` at such an input. -/

/-- C3 (failing input).  With the instance reachable (gate passes with
status `ok`) and the security-header GET timing out, `run_full_check`
raises `KeyError` instead of returning: the trace stops after the security
probe, rate-limiting is never invoked, and `main` neither prints a report
nor exports. -/
theorem run_full_check_crashes_on_security_error :
    (checkReachability envSecurityError.reach envSecurityError.reachLat).status
        = "ok" ∧
    (checkSecurityHeaders envSecurityError.sec).status = "error" ∧
    (runFullCheck envSecurityError).1 = .crashed "KeyError: score" ∧
    (runFullCheck envSecurityError).2.2 =
      ["reachability", "api", "nodeinfo", "timeline", "streaming", "media",
       "security"] ∧
    (runFullCheck envSecurityError).2.1.rate_limiting = none ∧
    mainSingle envSecurityError true = (.crashed "KeyError: score", false, false) :=
  ⟨rfl, rfl, rfl, rfl, rfl, rfl⟩

/-! ## C7: NodeInfo link selection -/

theorem findNodeinfoUrl_cons_skip {x : Json} (hx : SkipLink x) (ls : List Json) :
    findNodeinfoUrl (x :: ls) = findNodeinfoUrl ls := by
  rcases hx with ⟨fields, rfl, hnone⟩ | ⟨fields, h, rfl, hsome, hfalse⟩
  · simp only [findNodeinfoUrl, hnone]
  · simp only [findNodeinfoUrl, hsome, hfalse, Bool.false_eq_true, if_false]

theorem findNodeinfoUrl_cons_match {l : Json} {h : String} (hm : MatchLink l h)
    (ls : List Json) : findNodeinfoUrl (l :: ls) = .ok (some h) := by
  obtain ⟨fields, rfl, hsome, htrue⟩ := hm
  simp only [findNodeinfoUrl, hsome, htrue, if_true]

theorem findNodeinfoUrl_all_skip {links : List Json}
    (hs : ∀ x ∈ links, SkipLink x) : findNodeinfoUrl links = .ok none := by
  induction links with
  | nil => rfl
  | cons x ls ih =>
      rw [findNodeinfoUrl_cons_skip (hs x (List.mem_cons_self x ls))]
      exact ih (fun y hy => hs y (List.mem_cons_of_mem x hy))

/-- C7.  The NodeInfo probe selects the first link (in array order) whose
`href` contains `'nodeinfo/2.'`, skipping links without `href` or without
the substring; if no link matches, or the `links` key is absent, the probe
returns `warning` without fetching a second URL; when a first match exists,
the second fetch targets exactly its `href`. -/
theorem nodeinfo_link_selection :
    (∀ (pre : List Json) (l : Json) (post : List Json) (h : String),
      (∀ x ∈ pre, SkipLink x) → MatchLink l h →
      findNodeinfoUrl (pre ++ l :: post) = .ok (some h)) ∧
    (∀ links : List Json, (∀ x ∈ links, SkipLink x) →
      findNodeinfoUrl links = .ok none) ∧
    (∀ (url : String) (hs : List (String × String))
      (fields : List (String × Json)) (g : String → Fetch),
      jGet (.obj fields) "links" = none →
      checkNodeinfo2 (.resp 200 url hs (.ok (.obj fields))) g =
        ({ status := "warning",
           message := some "NodeInfo-Link nicht gefunden" }, none)) ∧
    (∀ (url : String) (hs : List (String × String))
      (fields : List (String × Json)) (links : List Json) (g : String → Fetch),
      jGet (.obj fields) "links" = some (.arr links) →
      (∀ x ∈ links, SkipLink x) →
      checkNodeinfo2 (.resp 200 url hs (.ok (.obj fields))) g =
        ({ status := "warning",
           message := some "NodeInfo-Link nicht gefunden" }, none)) ∧
    (∀ (url : String) (hs : List (String × String))
      (fields : List (String × Json)) (pre : List Json) (l : Json)
      (post : List Json) (h : String) (g : String → Fetch),
      jGet (.obj fields) "links" = some (.arr (pre ++ l :: post)) →
      (∀ x ∈ pre, SkipLink x) → MatchLink l h →
      (checkNodeinfo2 (.resp 200 url hs (.ok (.obj fields))) g).2 = some h) := by
  have first : ∀ (pre : List Json) (l : Json) (post : List Json) (h : String),
      (∀ x ∈ pre, SkipLink x) → MatchLink l h →
      findNodeinfoUrl (pre ++ l :: post) = .ok (some h) := by
    intro pre l post h hpre hm
    induction pre with
    | nil => exact findNodeinfoUrl_cons_match hm post
    | cons x ps ih =>
        rw [List.cons_append,
          findNodeinfoUrl_cons_skip (hpre x (List.mem_cons_self x ps))]
        exact ih (fun y hy => hpre y (List.mem_cons_of_mem x hy))
  refine ⟨first, fun links hs => findNodeinfoUrl_all_skip hs, ?_, ?_, ?_⟩
  · intro url hs fields g hnone
    simp only [checkNodeinfo2, getLinks, hnone]
    rfl
  · intro url hs fields links g hlinks hskip
    simp only [checkNodeinfo2, getLinks, hlinks, findNodeinfoUrl_all_skip hskip]
    rfl
  · intro url hs fields pre l post h g hlinks hskip hm
    simp only [checkNodeinfo2, getLinks, hlinks, first pre l post h hskip hm]
    rcases g h with k | ⟨c2, u2, hs2, b2⟩
    · rfl
    · by_cases h2 : c2 = 200
      · rcases b2 with j2 | m2 <;> simp [h2]
      · simp [h2]

/-- Witness for C7: the second link matches after a skipped rel-only link. -/
theorem nodeinfo_link_selection_witness :
    findNodeinfoUrl
      [Json.obj [("rel", Json.str "self")],
       Json.obj [("href", Json.str "https://e.example/nodeinfo/2.1")]]
      = .ok (some "https://e.example/nodeinfo/2.1") :=
  nodeinfo_link_selection.1 [Json.obj [("rel", Json.str "self")]]
    (Json.obj [("href", Json.str "https://e.example/nodeinfo/2.1")]) []
    "https://e.example/nodeinfo/2.1"
    (by
      intro x hx
      rw [List.mem_singleton] at hx
      subst hx
      exact Or.inl ⟨_, rfl, rfl⟩)
    ⟨_, rfl, rfl, rfl⟩

/-! ## C5: comparator ranking -/

theorem mem_insDesc {a x : CompEntry} {l : List CompEntry} :
    x ∈ insDesc a l ↔ x = a ∨ x ∈ l := by
  induction l with
  | nil => simp [insDesc]
  | cons b bs ih =>
      by_cases hlt : a.score < b.score
      · simp only [insDesc, if_pos hlt, List.mem_cons, ih]
        tauto
      · simp only [insDesc, if_neg hlt, List.mem_cons]

theorem insDesc_perm (a : CompEntry) (l : List CompEntry) :
    (insDesc a l).Perm (a :: l) := by
  induction l with
  | nil => exact List.Perm.refl _
  | cons b bs ih =>
      by_cases hlt : a.score < b.score
      · rw [insDesc, if_pos hlt]
        exact (ih.cons b).trans (List.Perm.swap a b bs)
      · rw [insDesc, if_neg hlt]

theorem sortDesc_perm (l : List CompEntry) : (sortDesc l).Perm l := by
  induction l with
  | nil => exact List.Perm.refl _
  | cons a as ih => exact (insDesc_perm a (sortDesc as)).trans (ih.cons a)

theorem insDesc_pairwise {a : CompEntry} {l : List CompEntry}
    (h : l.Pairwise (fun x y => y.score ≤ x.score)) :
    (insDesc a l).Pairwise (fun x y => y.score ≤ x.score) := by
  induction l with
  | nil => simp [insDesc]
  | cons b bs ih =>
      rw [List.pairwise_cons] at h
      by_cases hlt : a.score < b.score
      · rw [insDesc, if_pos hlt]
        rw [List.pairwise_cons]
        refine ⟨?_, ih h.2⟩
        intro y hy
        rcases mem_insDesc.mp hy with rfl | hy2
        · exact Nat.le_of_lt hlt
        · exact h.1 y hy2
      · rw [insDesc, if_neg hlt]
        rw [List.pairwise_cons]
        refine ⟨?_, List.pairwise_cons.mpr h⟩
        intro y hy
        rcases List.mem_cons.mp hy with rfl | hy2
        · exact Nat.le_of_not_lt hlt
        · exact Nat.le_trans (h.1 y hy2) (Nat.le_of_not_lt hlt)

theorem sortDesc_pairwise (l : List CompEntry) :
    (sortDesc l).Pairwise (fun x y => y.score ≤ x.score) := by
  induction l with
  | nil => simp [sortDesc]
  | cons a as ih => exact insDesc_pairwise ih

theorem filter_insDesc_ne {a : CompEntry} {k : Nat} (h : a.score ≠ k)
    (l : List CompEntry) :
    (insDesc a l).filter (fun r => r.score == k)
      = l.filter (fun r => r.score == k) := by
  induction l with
  | nil => simp [insDesc, List.filter, show (a.score == k) = false by simpa using h]
  | cons b bs ih =>
      by_cases hlt : a.score < b.score
      · rw [insDesc, if_pos hlt]
        simp only [List.filter, ih]
      · rw [insDesc, if_neg hlt]
        simp only [List.filter]
        rw [show (a.score == k) = false by simpa using h]

theorem filter_insDesc_eq {a : CompEntry} {k : Nat} (h : a.score = k)
    (l : List CompEntry) :
    (insDesc a l).filter (fun r => r.score == k)
      = a :: l.filter (fun r => r.score == k) := by
  induction l with
  | nil => simp [insDesc, List.filter, h]
  | cons b bs ih =>
      by_cases hlt : a.score < b.score
      · have hbk : (b.score == k) = false := by
          simp only [beq_eq_false_iff_ne]
          omega
        rw [insDesc, if_pos hlt]
        simp only [List.filter, hbk, ih]
      · rw [insDesc, if_neg hlt]
        simp only [List.filter]
        rw [show (a.score == k) = true by simpa using h]

/-- Stability of the descending sort: entries of any one score appear in
the output in exactly their input order. -/
theorem sortDesc_filter (l : List CompEntry) (k : Nat) :
    (sortDesc l).filter (fun r => r.score == k)
      = l.filter (fun r => r.score == k) := by
  induction l with
  | nil => rfl
  | cons a as ih =>
      by_cases hk : a.score = k
      · rw [sortDesc, filter_insDesc_eq hk, ih]
        simp only [List.filter]
        rw [show (a.score == k) = true by simpa using hk]
      · rw [sortDesc, filter_insDesc_ne hk, ih]
        simp only [List.filter]
        rw [show (a.score == k) = false by simpa using hk]

theorem runEntries_names (xs : List (String × Env)) (l : List CompEntry)
    (h : runEntries xs = .ok l) :
    l.map (fun r => r.name) =
      (xs.filter (fun p =>
        decide ((runFullCheck p.2).1 = RunOutcome.finished true))).map
        (fun p => p.1) := by
  induction xs generalizing l with
  | nil =>
      simp only [runEntries] at h
      cases h
      rfl
  | cons p rest ih =>
      obtain ⟨nm, e⟩ := p
      rw [runEntries] at h
      rcases h1 : (runFullCheck e).1 with b | m
      · cases b with
        | false =>
            rw [h1] at h
            rw [List.filter_cons]
            rw [show (decide ((runFullCheck e).1 = RunOutcome.finished true))
                  = false by simp [h1]]
            exact ih l h
        | true =>
            rw [h1] at h
            rcases h2 : calculate_health_score (runFullCheck e).2.1 with _ | sc
            · rw [h2] at h; cases h
            · rw [h2] at h
              rcases h3 : runEntries rest with m | l2
              · rw [h3] at h; cases h
              · rw [h3] at h
                simp only [Except.map] at h
                cases h
                rw [List.filter_cons]
                rw [show (decide ((runFullCheck e).1 = RunOutcome.finished true))
                      = true by simp [h1]]
                simp only [List.map]
                rw [ih l2 h3]
      · rw [h1] at h; cases h

/-- C5.  The comparator's ranking is the stable descending sort of the
entries of the gate-passing instances: it is a permutation of exactly those
entries, sorted by score descending, with equal-score entries kept in input
order; on input order `[A, B, C, D]` with scores `[40, 90, 90, 10]` the
output order is `[B, C, A, D]`. -/
theorem comparator_ranking :
    (∀ (xs : List (String × Env)) (l : List CompEntry),
      runEntries xs = .ok l →
      compareInstances xs = .ok (sortDesc l) ∧
      (sortDesc l).Perm l ∧
      (sortDesc l).Pairwise (fun x y => y.score ≤ x.score) ∧
      (∀ k : Nat, (sortDesc l).filter (fun r => r.score == k)
          = l.filter (fun r => r.score == k)) ∧
      l.map (fun r => r.name) =
        (xs.filter (fun p =>
          decide ((runFullCheck p.2).1 = RunOutcome.finished true))).map
          (fun p => p.1)) ∧
    (runEntries exInput).map namesScores =
      .ok [("A", 40), ("B", 90), ("C", 90), ("D", 10)] ∧
    (compareInstances exInput).map namesScores =
      .ok [("B", 90), ("C", 90), ("A", 40), ("D", 10)] := by
  refine ⟨?_, rfl, rfl⟩
  intro xs l h
  exact ⟨by rw [compareInstances, h]; rfl, sortDesc_perm l, sortDesc_pairwise l,
    fun k => sortDesc_filter l k, runEntries_names xs l h⟩

/-- Witness for C5 at the four-instance example input. -/
theorem comparator_ranking_witness :
    compareInstances exInput = .ok (sortDesc exEntries) :=
  (comparator_ranking.1 exInput exEntries rfl).1

/-! ## C10: monotonicity of the score in probe success -/

/-- Bucket-wise monotonicity lifts to the clamped total. -/
theorem scoreLe_of_parts {hr hr' : HealthReport}
    (h1 : reachPts hr.reachability ≤ reachPts hr'.reachability)
    (h2 : apiPts hr.api ≤ apiPts hr'.api)
    (h3 : nodeinfoPts hr.nodeinfo ≤ nodeinfoPts hr'.nodeinfo)
    (h4 : timelinePts hr.timeline ≤ timelinePts hr'.timeline)
    (h5 : streamingPts hr.streaming ≤ streamingPts hr'.streaming)
    (h6 : mediaPts hr.media ≤ mediaPts hr'.media)
    (h7 : ratePts hr.rate_limiting ≤ ratePts hr'.rate_limiting)
    (h8 : ∀ sp, secPts hr.security = some sp →
        ∃ sp', secPts hr'.security = some sp' ∧ sp ≤ sp') :
    scoreLe hr hr' := by
  intro n hn
  rcases hsp : secPts hr.security with _ | sp
  · rw [calculate_health_score, rawScore, hsp] at hn
    cases hn
  · obtain ⟨sp', hsp', hle⟩ := h8 sp hsp
    rw [calculate_health_score, rawScore, hsp] at hn
    simp only [Option.map_some'] at hn
    refine ⟨min (reachPts hr'.reachability + apiPts hr'.api
      + nodeinfoPts hr'.nodeinfo + timelinePts hr'.timeline
      + streamingPts hr'.streaming + mediaPts hr'.media + sp'
      + ratePts hr'.rate_limiting) 100, ?_, ?_⟩
    · rw [calculate_health_score, rawScore, hsp']
      rfl
    · rw [← Option.some.inj hn]
      exact min_le_min (by omega) le_rfl

/-- An untouched security bucket satisfies the security side condition of
`scoreLe_of_parts`. -/
theorem secPts_same {o : Option ProbeResult} :
    ∀ sp, secPts o = some sp → ∃ sp', secPts o = some sp' ∧ sp ≤ sp' :=
  fun sp hsp => ⟨sp, hsp, le_rfl⟩

theorem reachPts_status_ok (p : ProbeResult) :
    reachPts (some p) ≤ reachPts (some { p with status := "ok" }) := by
  by_cases hst : p.status = "ok" <;> simp [reachPts, hst]

theorem apiPts_status_ok (p : ProbeResult) :
    apiPts (some p) ≤ apiPts (some { p with status := "ok" }) := by
  by_cases hst : p.status = "ok" <;> simp [apiPts, hst]

theorem nodeinfoPts_status_ok (p : ProbeResult) :
    nodeinfoPts (some p) ≤ nodeinfoPts (some { p with status := "ok" }) := by
  by_cases hst : p.status = "ok" <;> simp [nodeinfoPts, hst]

theorem timelinePts_status_ok (p : ProbeResult) :
    timelinePts (some p) ≤ timelinePts (some { p with status := "ok" }) := by
  by_cases hst : p.status = "ok" <;> simp [timelinePts, hst]

theorem streamingPts_status_ok (p : ProbeResult) :
    streamingPts (some p) ≤ streamingPts (some { p with status := "ok" }) := by
  by_cases hst : p.status = "ok" <;> simp [streamingPts, hst]

theorem mediaPts_status_ok (p : ProbeResult) :
    mediaPts (some p) ≤ mediaPts (some { p with status := "ok" }) := by
  by_cases hst : p.status = "ok" <;> simp [mediaPts, hst]

theorem ratePts_status_ok (p : ProbeResult) :
    ratePts (some p) ≤ ratePts (some { p with status := "ok" }) := by
  by_cases hst : p.status = "ok" <;> simp [ratePts, hst]

theorem reachPts_lat_mono (p : ProbeResult) (lat lat' : Nat)
    (hlat : p.latency_ms = some lat) (hle : lat' ≤ lat) :
    reachPts (some p) ≤ reachPts (some { p with latency_ms := some lat' }) := by
  by_cases hst : p.status = "ok"
  · simp only [reachPts, hst, if_pos, hlat, Option.getD_some]
    split_ifs <;> omega
  · simp [reachPts, hst]

theorem timelinePts_lat_mono (p : ProbeResult) (lat lat' : Nat)
    (hlat : p.latency_ms = some lat) (hle : lat' ≤ lat) :
    timelinePts (some p) ≤ timelinePts (some { p with latency_ms := some lat' }) := by
  by_cases hst : p.status = "ok"
  · simp only [timelinePts, hst, if_pos, hlat, Option.getD_some]
    split_ifs <;> omega
  · simp [timelinePts, hst]

theorem secPts_status_upgrade (p : ProbeResult) (s m : Nat) (st : String)
    (hs : p.score = some s) (hm : p.max_score = some m) (hm0 : m ≠ 0)
    (hst : st = "ok" ∨ st = "warning") :
    ∀ sp, secPts (some p) = some sp →
      ∃ sp', secPts (some { p with status := st }) = some sp' ∧ sp ≤ sp' := by
  intro sp hsp
  have hnew : secPts (some { p with status := st }) = some (15 * s / m) := by
    simp only [secPts, if_pos hst, hs, hm]
    rw [if_neg hm0]
  by_cases hold : p.status = "ok" ∨ p.status = "warning"
  · rw [show secPts (some p) = some (15 * s / m) by
        simp only [secPts, if_pos hold, hs, hm]; rw [if_neg hm0]] at hsp
    cases hsp
    exact ⟨15 * s / m, hnew, le_rfl⟩
  · rw [show secPts (some p) = some 0 by simp only [secPts, if_neg hold]] at hsp
    cases hsp
    exact ⟨15 * s / m, hnew, Nat.zero_le _⟩

theorem secPts_score_mono (p : ProbeResult) (s s' m : Nat)
    (hs : p.score = some s) (hm : p.max_score = some m) (hm0 : m ≠ 0)
    (hss : s ≤ s') :
    ∀ sp, secPts (some p) = some sp →
      ∃ sp', secPts (some { p with score := some s' }) = some sp' ∧ sp ≤ sp' := by
  intro sp hsp
  by_cases hold : p.status = "ok" ∨ p.status = "warning"
  · rw [show secPts (some p) = some (15 * s / m) by
        simp only [secPts, if_pos hold, hs, hm]; rw [if_neg hm0]] at hsp
    cases hsp
    refine ⟨15 * s' / m, ?_, ?_⟩
    · simp only [secPts, if_pos hold, hm]
      rw [if_neg hm0]
    · exact Nat.div_le_div_right (Nat.mul_le_mul_left 15 hss)
  · rw [show secPts (some p) = some 0 by simp only [secPts, if_neg hold]] at hsp
    cases hsp
    exact ⟨0, by simp only [secPts, if_neg hold], le_rfl⟩

/-- C10.  `calculate_health_score` is monotone in probe success: setting
any single probe's status to its contributing value (`ok` for the seven
point buckets; `ok` or `warning` for Security), increasing the security
sub-score, or decreasing a recorded latency — each with every other entry
held fixed — never decreases the returned score (whenever defined, the new
score is defined and at least the old one). -/
theorem score_monotone_in_success :
    (∀ (hr : HealthReport) (p : ProbeResult), hr.reachability = some p →
      scoreLe hr { hr with reachability := some { p with status := "ok" } }) ∧
    (∀ (hr : HealthReport) (p : ProbeResult), hr.api = some p →
      scoreLe hr { hr with api := some { p with status := "ok" } }) ∧
    (∀ (hr : HealthReport) (p : ProbeResult), hr.nodeinfo = some p →
      scoreLe hr { hr with nodeinfo := some { p with status := "ok" } }) ∧
    (∀ (hr : HealthReport) (p : ProbeResult), hr.timeline = some p →
      scoreLe hr { hr with timeline := some { p with status := "ok" } }) ∧
    (∀ (hr : HealthReport) (p : ProbeResult), hr.streaming = some p →
      scoreLe hr { hr with streaming := some { p with status := "ok" } }) ∧
    (∀ (hr : HealthReport) (p : ProbeResult), hr.media = some p →
      scoreLe hr { hr with media := some { p with status := "ok" } }) ∧
    (∀ (hr : HealthReport) (p : ProbeResult), hr.rate_limiting = some p →
      scoreLe hr { hr with rate_limiting := some { p with status := "ok" } }) ∧
    (∀ (hr : HealthReport) (p : ProbeResult) (s m : Nat) (st : String),
      hr.security = some p → p.score = some s → p.max_score = some m →
      m ≠ 0 → st = "ok" ∨ st = "warning" →
      scoreLe hr { hr with security := some { p with status := st } }) ∧
    (∀ (hr : HealthReport) (p : ProbeResult) (s s' m : Nat),
      hr.security = some p → p.score = some s → p.max_score = some m →
      m ≠ 0 → s ≤ s' →
      scoreLe hr { hr with security := some { p with score := some s' } }) ∧
    (∀ (hr : HealthReport) (p : ProbeResult) (lat lat' : Nat),
      hr.reachability = some p → p.latency_ms = some lat → lat' ≤ lat →
      scoreLe hr
        { hr with reachability := some { p with latency_ms := some lat' } }) ∧
    (∀ (hr : HealthReport) (p : ProbeResult) (lat lat' : Nat),
      hr.timeline = some p → p.latency_ms = some lat → lat' ≤ lat →
      scoreLe hr
        { hr with timeline := some { p with latency_ms := some lat' } }) := by
  refine ⟨?_, ?_, ?_, ?_, ?_, ?_, ?_, ?_, ?_, ?_, ?_⟩
  · intro hr p ho
    refine scoreLe_of_parts ?_ le_rfl le_rfl le_rfl le_rfl le_rfl le_rfl secPts_same
    rw [ho]; exact reachPts_status_ok p
  · intro hr p ho
    refine scoreLe_of_parts le_rfl ?_ le_rfl le_rfl le_rfl le_rfl le_rfl secPts_same
    rw [ho]; exact apiPts_status_ok p
  · intro hr p ho
    refine scoreLe_of_parts le_rfl le_rfl ?_ le_rfl le_rfl le_rfl le_rfl secPts_same
    rw [ho]; exact nodeinfoPts_status_ok p
  · intro hr p ho
    refine scoreLe_of_parts le_rfl le_rfl le_rfl ?_ le_rfl le_rfl le_rfl secPts_same
    rw [ho]; exact timelinePts_status_ok p
  · intro hr p ho
    refine scoreLe_of_parts le_rfl le_rfl le_rfl le_rfl ?_ le_rfl le_rfl secPts_same
    rw [ho]; exact streamingPts_status_ok p
  · intro hr p ho
    refine scoreLe_of_parts le_rfl le_rfl le_rfl le_rfl le_rfl ?_ le_rfl secPts_same
    rw [ho]; exact mediaPts_status_ok p
  · intro hr p ho
    refine scoreLe_of_parts le_rfl le_rfl le_rfl le_rfl le_rfl le_rfl ?_ secPts_same
    rw [ho]; exact ratePts_status_ok p
  · intro hr p s m st ho hs hm hm0 hst
    refine scoreLe_of_parts le_rfl le_rfl le_rfl le_rfl le_rfl le_rfl le_rfl ?_
    rw [ho]; exact secPts_status_upgrade p s m st hs hm hm0 hst
  · intro hr p s s' m ho hs hm hm0 hss
    refine scoreLe_of_parts le_rfl le_rfl le_rfl le_rfl le_rfl le_rfl le_rfl ?_
    rw [ho]; exact secPts_score_mono p s s' m hs hm hm0 hss
  · intro hr p lat lat' ho hlat hle
    refine scoreLe_of_parts ?_ le_rfl le_rfl le_rfl le_rfl le_rfl le_rfl secPts_same
    rw [ho]; exact reachPts_lat_mono p lat lat' hlat hle
  · intro hr p lat lat' ho hlat hle
    refine scoreLe_of_parts le_rfl le_rfl le_rfl ?_ le_rfl le_rfl le_rfl secPts_same
    rw [ho]; exact timelinePts_lat_mono p lat lat' hlat hle

/-- Witness for C10: upgrading the API status of the all-error report does
not decrease its (defined) score. -/
theorem score_monotone_witness :
    ∃ m, calculate_health_score
        { allErrorReport with
          api := some { status := "ok", message := some "Timeout" } } = some m ∧
      0 ≤ m :=
  score_monotone_in_success.2.1 allErrorReport
    { status := "error", message := some "Timeout" } rfl 0 rfl

end InstanceHealth
